import Mathlib

/-!
Verification development for the WebGenAI single-page client.

The client submits a free-text website description to a backend, polls a
status endpoint for readiness, shows a preview and offers a zip download.
The definitions below are a shallow embedding of the relevant source files:

* `App` models `frontend/src/App.js` (the polling variant): its state
  (`projectId`, `previewUrl`, `zipUrl`, `loadingPreview`, `error`), the
  `handleGenerate` callback, and the `useEffect` that installs a
  `setInterval` timer issuing `checkStatus` every 5000 ms.  The effect and
  timer behaviour is modelled as an explicit event trace
  (`timerStart` / `timerCancel` / `query` events) driven by the sequence of
  `projectId` prop values and, per session, the list of status responses
  the backend would return.
* `InputFormC` models `frontend/src/components/InputForm.js`: the draft
  description, loading flag and error slot, and the `handleGenerate`
  submit action guarded by `description.trim()`.
* `PreviewC` models `frontend/src/components/Preview.js` (projectId
  variant): the `useEffect` that issues a best-effort `stopPreview` and
  then a `checkStatus`, with the React cleanup re-running
  `cleanupPreviousPreview` on identifier change.  Only the order in which
  API calls are issued is modelled (the model serialises each effect run;
  the cleanup of the previous effect runs synchronously before the next
  effect body, which is what the ordering theorems rely on).
* `Api` models `frontend/src/services/api.js` (zip-url variant) and
  `ApiV2` the variant whose `downloadZip` builds the download endpoint
  from the project identifier.
* `DownloadButton` models both variants of
  `frontend/src/components/DownloadButton.js` as pure render functions.
-/

namespace Webify

abbrev ProjectId := String
abbrev Url := String

/-- JavaScript truthiness of a nullable string: `null` and `""` are falsy. -/
def truthy : Option String → Bool
  | none => false
  | some s => !s.isEmpty

/-- The truthy identifier carried by an `Option ProjectId`, if any. -/
def truthyId : Option ProjectId → Option ProjectId
  | none => none
  | some id => if id.isEmpty then none else some id

namespace Api

/-- Base address fallback (`process.env.REACT_APP_API_URL || 'http://localhost:8000'`). -/
def API_URL : String := "http://localhost:8000"

/-- `downloadZip(zipUrl)` of the zip-url api variant: navigates to the given
reference (`window.location.href = zipUrl`); the result is the navigation target. -/
def downloadZip (zipUrl : Url) : Url := zipUrl

end Api

namespace ApiV2

/-- `downloadZip(projectId)` of the project-id api variant: navigates to
the fixed download endpoint for the identifier. -/
def downloadZip (projectId : ProjectId) : Url :=
  Api.API_URL ++ "/api/download/" ++ projectId

end ApiV2

namespace App

/-- A status response body: `{ status, preview_url, zip_url }`. -/
structure Snapshot where
  status : String
  preview_url : Url
  zip_url : Url
deriving DecidableEq

/-- Outcome of one `checkStatus` call: a snapshot, or a thrown error message. -/
inductive StatusResult where
  | ok (snap : Snapshot)
  | err (msg : String)
deriving DecidableEq

/-- The root coordinator state of `App.js` (polling variant). -/
structure AppState where
  projectId : Option ProjectId
  previewUrl : Option Url
  zipUrl : Option Url
  loadingPreview : Bool
  error : Option String
deriving DecidableEq

/-- The initial state: all `useState` hooks start at `null` / `false`. -/
def initialState : AppState :=
  { projectId := none, previewUrl := none, zipUrl := none,
    loadingPreview := false, error := none }

/-- `handleGenerate(id)`: adopt the new identifier, mark loading, clear the
top-level error.  (It does not touch `previewUrl` or `zipUrl`.) -/
def handleGenerate (s : AppState) (id : ProjectId) : AppState :=
  { s with projectId := some id, loadingPreview := true, error := none }

/-- One tick of the interval handler in the `useEffect` of `App.js`: handle
the result of the `checkStatus` call.  Returns the new state and whether the
timer keeps running (`false` exactly when `clearInterval` was called). -/
def pollTick (s : AppState) (r : StatusResult) : AppState × Bool :=
  match r with
  | .ok snap =>
      if snap.status == "ready" then
        ({ s with previewUrl := some snap.preview_url, zipUrl := some snap.zip_url,
                  loadingPreview := false }, false)
      else (s, true)
  | .err m => ({ s with error := some m, loadingPreview := false }, false)

/-- Result of running a polling session: final state, number of
`checkStatus` queries issued, and whether the timer is still armed. -/
structure PollRun where
  final : AppState
  queries : Nat
  timerActive : Bool
deriving DecidableEq

/-- Run the interval: each element of `rs` is the response to one issued
`checkStatus` query; ticking stops as soon as a tick calls `clearInterval`. -/
def runPolls (s : AppState) : List StatusResult → PollRun
  | [] => ⟨s, 0, true⟩
  | r :: rest =>
      let p := pollTick s r
      if p.2 then
        let q := runPolls p.1 rest
        ⟨q.final, q.queries + 1, q.timerActive⟩
      else ⟨p.1, 1, false⟩

/-- A response that leaves polling running: a snapshot whose status is not
`"ready"`. -/
def isNotReady : StatusResult → Bool
  | .ok snap => !(snap.status == "ready")
  | .err _ => false

/-- A response on which the tick handler calls `clearInterval`. -/
def stopsPolling : StatusResult → Bool
  | .ok snap => snap.status == "ready"
  | .err _ => true

/-- Number of `checkStatus` queries a session issues given the available
responses: everything up to and including the first stopping response. -/
def queriesIssued : List StatusResult → Nat
  | [] => 0
  | r :: rest => if stopsPolling r then 1 else queriesIssued rest + 1

/-- Whether the session's own tick handler cleared the interval. -/
def selfStopped : List StatusResult → Bool
  | [] => false
  | r :: rest => stopsPolling r || selfStopped rest

/-- The fixed polling interval: `setInterval(..., 5000)`. -/
def pollInterval : Nat := 5000

/-- Observable effect/timer events of the root coordinator. -/
inductive Event where
  | timerStart (id : ProjectId)
  | timerCancel (id : ProjectId)
  | query (id : ProjectId) (time : Nat)
deriving DecidableEq

/-- The `checkStatus` query events of one session: the k-th issued query
fires at time `(k+1) * pollInterval` after the timer was installed. -/
def queryEvents (id : ProjectId) (rs : List StatusResult) : List Event :=
  (List.range (queriesIssued rs)).map fun k => Event.query id ((k + 1) * pollInterval)

/-- The `clearInterval` issued from inside the tick handler, if any. -/
def selfCancelEvents (id : ProjectId) (rs : List StatusResult) : List Event :=
  if selfStopped rs then [Event.timerCancel id] else []

/-- The cleanup installed by the previous effect run, if it installed one
(`return () => clearInterval(pollStatus)`). -/
def cancelEvents : Option ProjectId → List Event
  | none => []
  | some a => [Event.timerCancel a]

/-- One run of the `useEffect` body for prop value `pid`, preceded by the
cleanup of the previous run (React runs the old cleanup before the new
body).  `t` is the identifier whose effect installed the pending cleanup.
Guard: `if (!projectId) return;`.  Returns the emitted events and the new
pending-cleanup identifier. -/
def sessionEvents (t : Option ProjectId) (pid : Option ProjectId)
    (rs : List StatusResult) : List Event × Option ProjectId :=
  match truthyId pid with
  | none => (cancelEvents t, none)
  | some id =>
      (cancelEvents t ++ Event.timerStart id ::
        (queryEvents id rs ++ selfCancelEvents id rs), some id)

/-- The event trace of the coordinator across a history of `projectId` prop
values, each paired with the status responses available to its session. -/
def genTrace (t : Option ProjectId) :
    List (Option ProjectId × List StatusResult) → List Event
  | [] => []
  | (pid, rs) :: rest =>
      let p := sessionEvents t pid rs
      p.1 ++ genTrace p.2 rest

/-- Replay one event against the multiset of armed timers. -/
def replayStep (l : List ProjectId) : Event → List ProjectId
  | .timerStart id => id :: l
  | .timerCancel id => l.erase id
  | .query _ _ => l

/-- Replay a whole event list. -/
def replay (l : List ProjectId) (evs : List Event) : List ProjectId :=
  evs.foldl replayStep l

/-- At most one timer armed before, during and after every event. -/
def boundedActive (l : List ProjectId) : List Event → Bool
  | [] => decide (l.length ≤ 1)
  | e :: evs => decide (l.length ≤ 1) && boundedActive (replayStep l e) evs

/-- The armed-timer list corresponding to a pending-cleanup identifier. -/
def optList : Option ProjectId → List ProjectId
  | none => []
  | some a => [a]

/-- The rendered top-level error: `{error && <div className="error">{error}</div>}`
shows the error text only when the slot holds a truthy (non-empty) string. -/
def errorView (s : AppState) : Option String :=
  match s.error with
  | none => none
  | some e => if e.isEmpty then none else some e

theorem pollTick_notReady (s : AppState) (r : StatusResult)
    (h : isNotReady r = true) : pollTick s r = (s, true) := by
  cases r with
  | ok snap =>
      simp only [isNotReady, Bool.not_eq_true'] at h
      simp [pollTick, h]
  | err m => simp [isNotReady] at h

theorem stopsPolling_eq_false (r : StatusResult) (h : isNotReady r = true) :
    stopsPolling r = false := by
  cases r with
  | ok snap =>
      simp only [isNotReady, Bool.not_eq_true'] at h
      simpa [stopsPolling] using h
  | err m => simp [isNotReady] at h

theorem replay_cons (l : List ProjectId) (e : Event) (evs : List Event) :
    replay l (e :: evs) = replay (replayStep l e) evs := rfl

theorem replay_append (l : List ProjectId) (xs ys : List Event) :
    replay l (xs ++ ys) = replay (replay l xs) ys := by
  induction xs generalizing l with
  | nil => rfl
  | cons x xs ih => simp [replay_cons, ih]

theorem boundedActive_append (xs ys : List Event) (l : List ProjectId) :
    boundedActive l (xs ++ ys) =
      (boundedActive l xs && boundedActive (replay l xs) ys) := by
  induction xs generalizing l with
  | nil =>
      cases ys with
      | nil => simp [boundedActive, replay]
      | cons y t =>
          show boundedActive l (y :: t) =
            (decide (l.length ≤ 1) && boundedActive l (y :: t))
          cases h : decide (l.length ≤ 1) <;> simp [boundedActive, h]
  | cons x xs ih =>
      simp [boundedActive, replay_cons, ih, Bool.and_assoc]

theorem replay_of_queries (l : List ProjectId) (evs : List Event)
    (h : ∀ e ∈ evs, ∃ id tm, e = Event.query id tm) : replay l evs = l := by
  induction evs with
  | nil => rfl
  | cons e t ih =>
      obtain ⟨id, tm, rfl⟩ := h e (by simp)
      rw [replay_cons]
      exact ih fun x hx => h x (by simp [hx])

theorem boundedActive_of_queries (l : List ProjectId) (evs : List Event)
    (h : ∀ e ∈ evs, ∃ id tm, e = Event.query id tm) :
    boundedActive l evs = decide (l.length ≤ 1) := by
  induction evs with
  | nil => rfl
  | cons e t ih =>
      obtain ⟨id, tm, rfl⟩ := h e (by simp)
      have := ih fun x hx => h x (by simp [hx])
      simp [boundedActive, replayStep, this]

theorem queryEvents_shape (id : ProjectId) (rs : List StatusResult) :
    ∀ e ∈ queryEvents id rs, ∃ i tm, e = Event.query i tm := by
  intro e he
  simp only [queryEvents, List.mem_map, List.mem_range] at he
  obtain ⟨k, -, rfl⟩ := he
  exact ⟨id, _, rfl⟩

theorem cancel_resets (t : Option ProjectId) (l : List ProjectId)
    (h : l = [] ∨ l = optList t) :
    replay l (cancelEvents t) = [] ∧ boundedActive l (cancelEvents t) = true := by
  cases t with
  | none =>
      rcases h with rfl | rfl <;>
        simp [cancelEvents, replay, boundedActive, optList]
  | some a =>
      rcases h with rfl | rfl <;>
        simp [cancelEvents, replay_cons, replay, replayStep, boundedActive, optList]

theorem session_invariant (t pid : Option ProjectId) (rs : List StatusResult)
    (l : List ProjectId) (h : l = [] ∨ l = optList t) :
    boundedActive l (sessionEvents t pid rs).1 = true ∧
    (replay l (sessionEvents t pid rs).1 = [] ∨
      replay l (sessionEvents t pid rs).1 = optList (sessionEvents t pid rs).2) := by
  obtain ⟨hc_replay, hc_bounded⟩ := cancel_resets t l h
  have hlen : l.length ≤ 1 := by
    rcases h with rfl | rfl
    · simp
    · cases t <;> simp [optList]
  cases hpid : truthyId pid with
  | none =>
      refine ⟨?_, Or.inl ?_⟩ <;> simp [sessionEvents, hpid, hc_replay, hc_bounded]
  | some id =>
      have hq := queryEvents_shape id rs
      have hrep : replay l (sessionEvents t pid rs).1 =
          replay [id] (selfCancelEvents id rs) := by
        simp only [sessionEvents, hpid, replay_append, hc_replay, replay_cons]
        simp only [replayStep, replay_append, replay_of_queries [id] _ hq]
      have hb : boundedActive l (sessionEvents t pid rs).1 = true := by
        simp only [sessionEvents, hpid, boundedActive_append, hc_bounded,
          Bool.true_and, hc_replay]
        have h1 : boundedActive ([] : List ProjectId)
            (Event.timerStart id :: (queryEvents id rs ++ selfCancelEvents id rs)) =
            boundedActive [id] (queryEvents id rs ++ selfCancelEvents id rs) := by
          simp [boundedActive, replayStep]
        rw [h1, boundedActive_append, boundedActive_of_queries [id] _ hq,
          replay_of_queries [id] _ hq]
        unfold selfCancelEvents
        by_cases hss : selfStopped rs = true <;>
          simp [hss, boundedActive, replayStep]
      refine ⟨hb, ?_⟩
      rw [hrep]
      unfold selfCancelEvents
      by_cases hss : selfStopped rs = true
      · exact Or.inl (by simp [hss, replay_cons, replay, replayStep])
      · refine Or.inr ?_
        simp only [sessionEvents, hpid]
        simp [hss, replay, optList]

theorem boundedActive_genTrace
    (gens : List (Option ProjectId × List StatusResult)) (t : Option ProjectId)
    (l : List ProjectId) (h : l = [] ∨ l = optList t) :
    boundedActive l (genTrace t gens) = true := by
  induction gens generalizing t l with
  | nil =>
      have : l.length ≤ 1 := by
        rcases h with rfl | rfl
        · simp
        · cases t <;> simp [optList]
      simpa [genTrace, boundedActive] using this
  | cons g rest ih =>
      obtain ⟨pid, rs⟩ := g
      obtain ⟨hb, hrep⟩ := session_invariant t pid rs l h
      show boundedActive l ((sessionEvents t pid rs).1 ++
        genTrace (sessionEvents t pid rs).2 rest) = true
      rw [boundedActive_append, hb, Bool.true_and]
      exact ih (sessionEvents t pid rs).2 _ hrep

end App

namespace InputFormC

/-- The input component state: draft description, in-flight flag, last error. -/
structure FormState where
  description : String
  loading : Bool
  error : Option String
deriving DecidableEq

/-- Outcome of the `generateProject` call awaited by the submit action. -/
inductive GenOutcome where
  | ok (project_id : ProjectId)
  | err (msg : String)
deriving DecidableEq

/-- Outward-visible actions of the submit handler: the network call to
`generateProject` (with the raw description it sends) and the
`onGenerate(project_id)` report to the parent. -/
inductive FormEvent where
  | submitCall (description : String)
  | reportUp (id : ProjectId)
deriving DecidableEq

/-- Shallow embedding of JavaScript `String.prototype.trim`: strip leading
and trailing whitespace characters. -/
def jsTrim (s : String) : String :=
  ⟨((s.data.dropWhile Char.isWhitespace).reverse.dropWhile Char.isWhitespace).reverse⟩

/-- The state right after `setLoading(true); setError(null);`. -/
def inFlight (s : FormState) : FormState :=
  { s with loading := true, error := none }

/-- Settle the awaited call: `onGenerate(project_id)` on success,
`setError(err.message)` on failure, `setLoading(false)` in the `finally`. -/
def settleGenerate (s : FormState) : GenOutcome → FormState × List FormEvent
  | .ok pid => ({ s with loading := false }, [FormEvent.reportUp pid])
  | .err m => ({ s with error := some m, loading := false }, [])

/-- The whole submit action `handleGenerate` of `InputForm.js`:
`if (!description.trim()) return;` then mark in-flight, clear the error,
call `generateProject(description)` once and settle its outcome. -/
def handleGenerate (s : FormState) (outcome : GenOutcome) :
    FormState × List FormEvent :=
  if (jsTrim s.description).isEmpty then (s, [])
  else
    let r := settleGenerate (inFlight s) outcome
    (r.1, FormEvent.submitCall s.description :: r.2)

/-- Recognise the network-call event. -/
def isSubmit : FormEvent → Bool
  | .submitCall _ => true
  | .reportUp _ => false

end InputFormC

namespace PreviewC

/-- API calls issued by the projectId-variant `Preview` component. -/
inductive PreviewCall where
  | stopPreview (id : ProjectId)
  | checkStatus (id : ProjectId)
deriving DecidableEq

/-- One run of `Preview`'s `useEffect` for prop value `pid`, preceded by
the cleanup of the previous run (`return () => { cleanupPreviousPreview(); }`,
closing over the previous identifier `t`).  The body, guarded by
`if (!projectId) return;`, runs `cleanupPreviousPreview().then(fetchPreview)`:
a `stopPreview` for the *current* `projectId` (failures swallowed) followed
by one `checkStatus` for it.  Returns the issued calls in order and the new
pending-cleanup identifier. -/
def previewEffect (t : Option ProjectId) (pid : Option ProjectId) :
    List PreviewCall × Option ProjectId :=
  let cleanup := match t with
    | none => ([] : List PreviewCall)
    | some a => [PreviewCall.stopPreview a]
  match truthyId pid with
  | none => (cleanup, none)
  | some id => (cleanup ++ [PreviewCall.stopPreview id, PreviewCall.checkStatus id], some id)

/-- The call trace across a history of `projectId` prop values. -/
def previewTrace (t : Option ProjectId) : List (Option ProjectId) → List PreviewCall
  | [] => []
  | pid :: rest =>
      let p := previewEffect t pid
      p.1 ++ previewTrace p.2 rest

/-- A `stopPreview a` is issued strictly before the first `checkStatus b`
in the given call list. -/
def stopsBeforeFirstQuery (calls : List PreviewCall) (a b : ProjectId) : Prop :=
  PreviewCall.stopPreview a ∈ calls.takeWhile fun c => c ≠ PreviewCall.checkStatus b

instance (calls : List PreviewCall) (a b : ProjectId) :
    Decidable (stopsBeforeFirstQuery calls a b) := by
  unfold stopsBeforeFirstQuery; infer_instance

/-- The claim predicate for one effect run adopting `newId`: a
`requestStopPreview` for *the previous identifier* is issued before the
first `queryStatus` for `newId`. -/
def claimStopPrevBeforeQuery (t : Option ProjectId) (newId : ProjectId) : Prop :=
  ∃ a, t = some a ∧ stopsBeforeFirstQuery (previewEffect t (some newId)).1 a newId

end PreviewC

/-- The rendered download control: absent (`return null`), or a button with
an enabled flag and the navigation target of its click handler. -/
inductive DownloadView where
  | absent
  | button (enabled : Bool) (target : Url)
deriving DecidableEq

/-- The zip-url variant of `DownloadButton.js`: `if (!zipUrl) return null;`
renders nothing when `zipUrl` is falsy (`null` or the empty string);
otherwise a button, disabled by the `disabled` prop, whose click navigates
to `downloadZip(zipUrl)`. -/
def DownloadButton (zipUrl : Option Url) (disabled : Bool) : DownloadView :=
  match truthyId zipUrl with
  | none => DownloadView.absent
  | some z => DownloadView.button (!disabled) (Api.downloadZip z)

/-- The projectId variant of `DownloadButton`: always rendered; enabled
exactly when the identifier is truthy (`disabled={!projectId}`); clicking
navigates to the fixed download endpoint when the identifier is truthy and
does nothing otherwise. -/
def DownloadButtonPid (projectId : Option ProjectId) : Bool × Option Url :=
  (truthy projectId,
   match truthyId projectId with
   | some id => some (ApiV2.downloadZip id)
   | none => none)

/-- C9: a poll tick whose `checkStatus` succeeds with a non-ready snapshot
leaves every field of the coordinator state (preview reference, download
reference, loading flag, error slot) unchanged and keeps the timer running. -/
theorem claim9_notReady_tick_is_frame (s : App.AppState) (snap : App.Snapshot)
    (h : (snap.status == "ready") = false) :
    App.pollTick s (App.StatusResult.ok snap) = (s, true) := by
  simp [App.pollTick, h]

theorem claim9_notReady_tick_is_frame_witness :
    App.pollTick App.initialState (App.StatusResult.ok ⟨"pending", "u", "z"⟩) =
      (App.initialState, true) :=
  claim9_notReady_tick_is_frame App.initialState ⟨"pending", "u", "z"⟩ (by decide)

/-- C10: when the tracked identifier is null, the polling effect returns at
its guard: no timer is installed (the pending cleanup becomes `none`), and
the events it emits (only the previous cleanup's `clearInterval`, if any)
contain no timer start and no `checkStatus` query. -/
theorem claim10_no_query_without_id (t : Option ProjectId)
    (rs : List App.StatusResult) :
    App.sessionEvents t none rs = (App.cancelEvents t, none) ∧
    (∀ id, App.Event.timerStart id ∉ App.cancelEvents t) ∧
    (∀ id tm, App.Event.query id tm ∉ App.cancelEvents t) := by
  refine ⟨rfl, ?_, ?_⟩ <;> cases t <;> simp [App.cancelEvents]

/-- C1: if `queryStatus` answers not-ready three times and then ready, the
session issues exactly four queries, one per fixed 5000 ms interval (at
5000, 10000, 15000, 20000), then stops the timer and records the preview
and download references from the ready snapshot; later responses are never
consumed. -/
theorem claim1_four_queries_then_stop (s : App.AppState) (pid : ProjectId)
    (r₁ r₂ r₃ : App.StatusResult) (snap : App.Snapshot)
    (rest : List App.StatusResult)
    (h₁ : App.isNotReady r₁ = true) (h₂ : App.isNotReady r₂ = true)
    (h₃ : App.isNotReady r₃ = true) (hr : snap.status = "ready") :
    App.runPolls s (r₁ :: r₂ :: r₃ :: App.StatusResult.ok snap :: rest) =
      ⟨{ s with previewUrl := some snap.preview_url, zipUrl := some snap.zip_url,
                loadingPreview := false }, 4, false⟩ ∧
    App.queryEvents pid (r₁ :: r₂ :: r₃ :: App.StatusResult.ok snap :: rest) =
      [App.Event.query pid 5000, App.Event.query pid 10000,
       App.Event.query pid 15000, App.Event.query pid 20000] := by
  have t₁ := App.pollTick_notReady s r₁ h₁
  have t₂ := App.pollTick_notReady s r₂ h₂
  have t₃ := App.pollTick_notReady s r₃ h₃
  have q₁ := App.stopsPolling_eq_false r₁ h₁
  have q₂ := App.stopsPolling_eq_false r₂ h₂
  have q₃ := App.stopsPolling_eq_false r₃ h₃
  have t₄ : App.pollTick s (App.StatusResult.ok snap) =
      ({ s with previewUrl := some snap.preview_url, zipUrl := some snap.zip_url,
                loadingPreview := false }, false) := by
    simp [App.pollTick, hr]
  constructor
  · simp [App.runPolls, t₁, t₂, t₃, t₄]
  · have qr : App.stopsPolling (App.StatusResult.ok snap) = true := by
      simp [App.stopsPolling, hr]
    have hq : App.queriesIssued
        (r₁ :: r₂ :: r₃ :: App.StatusResult.ok snap :: rest) = 4 := by
      simp [App.queriesIssued, q₁, q₂, q₃, qr]
    rw [App.queryEvents, hq]
    rfl

theorem claim1_four_queries_then_stop_witness :
    App.runPolls App.initialState
        [App.StatusResult.ok ⟨"pending", "", ""⟩, App.StatusResult.ok ⟨"pending", "", ""⟩,
         App.StatusResult.ok ⟨"pending", "", ""⟩, App.StatusResult.ok ⟨"ready", "u1", "z1"⟩] =
      ⟨{ App.initialState with previewUrl := some "u1", zipUrl := some "z1",
                               loadingPreview := false }, 4, false⟩ ∧
    App.queryEvents "p1"
        [App.StatusResult.ok ⟨"pending", "", ""⟩, App.StatusResult.ok ⟨"pending", "", ""⟩,
         App.StatusResult.ok ⟨"pending", "", ""⟩, App.StatusResult.ok ⟨"ready", "u1", "z1"⟩] =
      [App.Event.query "p1" 5000, App.Event.query "p1" 10000,
       App.Event.query "p1" 15000, App.Event.query "p1" 20000] :=
  claim1_four_queries_then_stop App.initialState "p1" _ _ _ ⟨"ready", "u1", "z1"⟩ []
    (by decide) (by decide) (by decide) rfl

/-- C3: if a `checkStatus` call fails after any number of not-ready polls,
the timer is stopped, the error message is recorded (and rendered when
non-empty), loading is cleared, and no further responses are consumed — the
query count is exactly the failing poll's index, whatever responses follow. -/
theorem claim3_failure_stops_polling (s : App.AppState) (pre : List App.StatusResult)
    (m : String) (rest : List App.StatusResult)
    (h : ∀ r ∈ pre, App.isNotReady r = true) :
    App.runPolls s (pre ++ App.StatusResult.err m :: rest) =
      ⟨{ s with error := some m, loadingPreview := false }, pre.length + 1, false⟩ ∧
    (m.isEmpty = false →
      App.errorView { s with error := some m, loadingPreview := false } = some m) := by
  constructor
  · induction pre with
    | nil => simp [App.runPolls, App.pollTick]
    | cons r rs ih =>
        have hr := h r (by simp)
        have step := ih fun x hx => h x (by simp [hx])
        simp [App.runPolls, App.pollTick_notReady s r hr, step]
  · intro hm
    simp [App.errorView, hm]

theorem claim3_failure_stops_polling_witness :
    App.runPolls App.initialState
        [App.StatusResult.ok ⟨"pending", "", ""⟩, App.StatusResult.err "boom",
         App.StatusResult.ok ⟨"ready", "u", "z"⟩] =
      ⟨{ App.initialState with error := some "boom", loadingPreview := false }, 2, false⟩ ∧
    ("boom".isEmpty = false →
      App.errorView { App.initialState with error := some "boom", loadingPreview := false } =
        some "boom") :=
  claim3_failure_stops_polling App.initialState [App.StatusResult.ok ⟨"pending", "", ""⟩]
    "boom" [App.StatusResult.ok ⟨"ready", "u", "z"⟩] (by decide)

/-- C7: a submit with a non-blank trimmed description while not in flight
marks in-flight and clears the prior error, issues exactly one
`submitGeneration` network call, ends with in-flight cleared, reports the
new identifier upward (with no error recorded) on success, and records the
error message on failure. -/
theorem claim7_submit_contract (s : InputFormC.FormState)
    (outcome : InputFormC.GenOutcome) (_hfree : s.loading = false)
    (hne : (InputFormC.jsTrim s.description).isEmpty = false) :
    ((InputFormC.handleGenerate s outcome).2.countP InputFormC.isSubmit = 1) ∧
    ((InputFormC.inFlight s).loading = true ∧ (InputFormC.inFlight s).error = none) ∧
    ((InputFormC.handleGenerate s outcome).1.loading = false) ∧
    (∀ pid, outcome = InputFormC.GenOutcome.ok pid →
        InputFormC.FormEvent.reportUp pid ∈ (InputFormC.handleGenerate s outcome).2 ∧
        (InputFormC.handleGenerate s outcome).1.error = none) ∧
    (∀ m, outcome = InputFormC.GenOutcome.err m →
        (InputFormC.handleGenerate s outcome).1.error = some m) := by
  cases outcome <;>
    simp [InputFormC.handleGenerate, InputFormC.settleGenerate, InputFormC.inFlight,
      hne, InputFormC.isSubmit, List.countP_cons, List.countP_nil]

theorem claim7_submit_contract_witness :
    ((InputFormC.handleGenerate ⟨"a blog site", false, none⟩
        (InputFormC.GenOutcome.ok "p1")).2.countP InputFormC.isSubmit = 1) ∧
    ((InputFormC.inFlight ⟨"a blog site", false, none⟩).loading = true ∧
      (InputFormC.inFlight ⟨"a blog site", false, none⟩).error = none) ∧
    ((InputFormC.handleGenerate ⟨"a blog site", false, none⟩
        (InputFormC.GenOutcome.ok "p1")).1.loading = false) ∧
    (∀ pid, InputFormC.GenOutcome.ok "p1" = InputFormC.GenOutcome.ok pid →
        InputFormC.FormEvent.reportUp pid ∈
          (InputFormC.handleGenerate ⟨"a blog site", false, none⟩
            (InputFormC.GenOutcome.ok "p1")).2 ∧
        (InputFormC.handleGenerate ⟨"a blog site", false, none⟩
          (InputFormC.GenOutcome.ok "p1")).1.error = none) ∧
    (∀ m, InputFormC.GenOutcome.ok "p1" = InputFormC.GenOutcome.err m →
        (InputFormC.handleGenerate ⟨"a blog site", false, none⟩
          (InputFormC.GenOutcome.ok "p1")).1.error = some m) :=
  claim7_submit_contract ⟨"a blog site", false, none⟩ (InputFormC.GenOutcome.ok "p1")
    rfl (by decide)

/-- C8: submitting while the description is empty or whitespace-only is a
no-op — the guard `if (!description.trim()) return;` fires, so no network
call is issued and the component state is returned unchanged. -/
theorem claim8_blank_description_noop (s : InputFormC.FormState)
    (outcome : InputFormC.GenOutcome)
    (h : s.description.data.all Char.isWhitespace = true) :
    InputFormC.handleGenerate s outcome = (s, []) := by
  have hdrop : s.description.data.dropWhile Char.isWhitespace = [] :=
    List.dropWhile_eq_nil_iff.mpr fun x hx => by
      have := List.all_eq_true.mp h x hx
      simpa using this
  have htrim : InputFormC.jsTrim s.description = "" := by
    simp [InputFormC.jsTrim, hdrop]
  simp only [InputFormC.handleGenerate, htrim]
  simp [show ("" : String).isEmpty = true by decide]

theorem claim8_blank_description_noop_witness :
    InputFormC.handleGenerate ⟨"  ", false, none⟩ (InputFormC.GenOutcome.ok "p1") =
      (⟨"  ", false, none⟩, []) :=
  claim8_blank_description_noop ⟨"  ", false, none⟩ (InputFormC.GenOutcome.ok "p1")
    (by decide)

/-- C2 counterexample: on the first identifier received there is no
previous identifier, so no `requestStopPreview` for a previous identifier
is (or can be) issued before the first `queryStatus`; the effect instead
issues a stop for the new identifier itself. -/
theorem claim2_first_identifier_counterexample :
    ¬ PreviewC.claimStopPrevBeforeQuery none "p1" ∧
    PreviewC.previewEffect none (some "p1") =
      ([PreviewC.PreviewCall.stopPreview "p1", PreviewC.PreviewCall.checkStatus "p1"],
       some "p1") := by
  constructor
  · rintro ⟨a, ha, -⟩
    exact Option.noConfusion ha
  · decide

/-- C2 amended: on every identifier change from `A` to `B` the effect
cleanup issues `requestStopPreview` for `A` before the first `queryStatus`
for `B`; on the first identifier received there is no previous identifier,
and the effect instead issues a `requestStopPreview` for the new identifier
itself before its first query (the full two-step call trace being
stop A, check A, stop A, stop B, check B). -/
theorem claim2_stop_before_query_amended (A B : ProjectId)
    (hA : A.isEmpty = false) (hB : B.isEmpty = false) :
    PreviewC.stopsBeforeFirstQuery (PreviewC.previewEffect (some A) (some B)).1 A B ∧
    (PreviewC.previewEffect none (some B)).1 =
      [PreviewC.PreviewCall.stopPreview B, PreviewC.PreviewCall.checkStatus B] ∧
    PreviewC.previewTrace none [some A, some B] =
      [PreviewC.PreviewCall.stopPreview A, PreviewC.PreviewCall.checkStatus A,
       PreviewC.PreviewCall.stopPreview A, PreviewC.PreviewCall.stopPreview B,
       PreviewC.PreviewCall.checkStatus B] := by
  refine ⟨?_, ?_, ?_⟩
  · simp [PreviewC.stopsBeforeFirstQuery, PreviewC.previewEffect, truthyId, hB,
      List.takeWhile]
  · simp [PreviewC.previewEffect, truthyId, hB]
  · simp [PreviewC.previewTrace, PreviewC.previewEffect, truthyId, hA, hB]

theorem claim2_stop_before_query_amended_witness :
    PreviewC.stopsBeforeFirstQuery
        (PreviewC.previewEffect (some "p1") (some "p2")).1 "p1" "p2" ∧
    (PreviewC.previewEffect none (some "p2")).1 =
      [PreviewC.PreviewCall.stopPreview "p2", PreviewC.PreviewCall.checkStatus "p2"] ∧
    PreviewC.previewTrace none [some "p1", some "p2"] =
      [PreviewC.PreviewCall.stopPreview "p1", PreviewC.PreviewCall.checkStatus "p1",
       PreviewC.PreviewCall.stopPreview "p1", PreviewC.PreviewCall.stopPreview "p2",
       PreviewC.PreviewCall.checkStatus "p2"] :=
  claim2_stop_before_query_amended "p1" "p2" (by decide) (by decide)

/-- C6 counterexample: from a state holding the previous session's derived
fields, `handleGenerate` (a new submission) keeps both the preview and the
download reference, and the stale download control remains rendered — the
old session's derived state is not discarded. -/
theorem claim6_retained_fields_counterexample :
    (App.handleGenerate ⟨some "p1", some "u1", some "z1", false, none⟩ "p2").previewUrl =
      some "u1" ∧
    (App.handleGenerate ⟨some "p1", some "u1", some "z1", false, none⟩ "p2").zipUrl =
      some "z1" ∧
    DownloadButton
        (App.handleGenerate ⟨some "p1", some "u1", some "z1", false, none⟩ "p2").zipUrl
        (App.handleGenerate ⟨some "p1", some "u1", some "z1", false, none⟩ "p2").loadingPreview ≠
      DownloadView.absent := by
  decide

/-- C6 amended: a new submission adopts the identifier, marks loading and
clears the error, but retains the previous session's preview and download
references (they stay observable, e.g. the download control stays rendered);
they are only replaced once the new session's poll reports ready. -/
theorem claim6_new_submission_retains_refs (s : App.AppState) (id : ProjectId)
    (snap : App.Snapshot) (rest : List App.StatusResult)
    (hr : snap.status = "ready") :
    (App.handleGenerate s id).projectId = some id ∧
    (App.handleGenerate s id).loadingPreview = true ∧
    (App.handleGenerate s id).error = none ∧
    (App.handleGenerate s id).previewUrl = s.previewUrl ∧
    (App.handleGenerate s id).zipUrl = s.zipUrl ∧
    (App.runPolls (App.handleGenerate s id)
        (App.StatusResult.ok snap :: rest)).final.previewUrl = some snap.preview_url ∧
    (App.runPolls (App.handleGenerate s id)
        (App.StatusResult.ok snap :: rest)).final.zipUrl = some snap.zip_url := by
  refine ⟨rfl, rfl, rfl, rfl, rfl, ?_, ?_⟩ <;>
    simp [App.runPolls, App.pollTick, hr]

theorem claim6_new_submission_retains_refs_witness :
    (App.handleGenerate App.initialState "p2").projectId = some "p2" ∧
    (App.handleGenerate App.initialState "p2").loadingPreview = true ∧
    (App.handleGenerate App.initialState "p2").error = none ∧
    (App.handleGenerate App.initialState "p2").previewUrl = App.initialState.previewUrl ∧
    (App.handleGenerate App.initialState "p2").zipUrl = App.initialState.zipUrl ∧
    (App.runPolls (App.handleGenerate App.initialState "p2")
        (App.StatusResult.ok ⟨"ready", "u2", "z2"⟩ :: [])).final.previewUrl = some "u2" ∧
    (App.runPolls (App.handleGenerate App.initialState "p2")
        (App.StatusResult.ok ⟨"ready", "u2", "z2"⟩ :: [])).final.zipUrl = some "z2" :=
  claim6_new_submission_retains_refs App.initialState "p2" ⟨"ready", "u2", "z2"⟩ [] rfl

/-- C4 counterexample: a reachable state in which a ready download
reference exists and yet the action is disabled — submit `"p1"`, receive a
ready snapshot recording `"z1"`, then submit `"p2"`: the stale reference
`"z1"` is still recorded but the rendered button is disabled. -/
theorem claim4_download_gating_counterexample :
    (App.handleGenerate
        (App.runPolls (App.handleGenerate App.initialState "p1")
          [App.StatusResult.ok ⟨"ready", "u1", "z1"⟩]).final "p2").zipUrl = some "z1" ∧
    DownloadButton
        (App.handleGenerate
          (App.runPolls (App.handleGenerate App.initialState "p1")
            [App.StatusResult.ok ⟨"ready", "u1", "z1"⟩]).final "p2").zipUrl
        (App.handleGenerate
          (App.runPolls (App.handleGenerate App.initialState "p1")
            [App.StatusResult.ok ⟨"ready", "u1", "z1"⟩]).final "p2").loadingPreview =
      DownloadView.button false "z1" := by
  decide

/-- C4 amended: the download action is absent (not activatable) when no
truthy download reference is recorded — `null` and the empty string both
render nothing; a recorded non-empty reference yields a button that is
enabled exactly when no generation is in flight and whose activation
navigates to exactly that reference; immediately after a ready snapshot
carrying a non-empty reference it is enabled with the snapshot's reference;
while a new submission is in flight a stale reference stays rendered but
disabled; the projectId-variant button is enabled whenever an identifier is
present, regardless of readiness. -/
theorem claim4_download_gating_amended (z : Url) (d : Bool) (s : App.AppState)
    (snap : App.Snapshot) (rest : List App.StatusResult) (id p : ProjectId)
    (hr : snap.status = "ready") (hz : z.isEmpty = false)
    (hzs : snap.zip_url.isEmpty = false) (hp : p.isEmpty = false) :
    DownloadButton none d = DownloadView.absent ∧
    DownloadButton (some "") d = DownloadView.absent ∧
    DownloadButton (some z) false = DownloadView.button true z ∧
    Api.downloadZip z = z ∧
    DownloadButton (App.runPolls s (App.StatusResult.ok snap :: rest)).final.zipUrl
        (App.runPolls s (App.StatusResult.ok snap :: rest)).final.loadingPreview =
      DownloadView.button true snap.zip_url ∧
    (∀ zs, zs.isEmpty = false → (App.handleGenerate s id).zipUrl = some zs →
        DownloadButton (App.handleGenerate s id).zipUrl
            (App.handleGenerate s id).loadingPreview =
          DownloadView.button false zs) ∧
    (DownloadButtonPid (some p)).1 = true := by
  have hready : App.runPolls s (App.StatusResult.ok snap :: rest) =
      ⟨{ s with previewUrl := some snap.preview_url, zipUrl := some snap.zip_url,
                loadingPreview := false }, 1, false⟩ := by
    simp [App.runPolls, App.pollTick, hr]
  refine ⟨rfl, rfl, ?_, rfl, ?_, ?_, ?_⟩
  · simp [DownloadButton, truthyId, hz, Api.downloadZip]
  · rw [hready]
    simp [DownloadButton, truthyId, hzs, Api.downloadZip]
  · intro zs hzse hzeq
    have : s.zipUrl = some zs := hzeq
    simp [App.handleGenerate, DownloadButton, truthyId, this, hzse, Api.downloadZip]
  · simp [DownloadButtonPid, truthy, hp]

theorem claim4_download_gating_amended_witness :
    DownloadButton none false = DownloadView.absent ∧
    DownloadButton (some "") false = DownloadView.absent ∧
    DownloadButton (some "z1") false = DownloadView.button true "z1" ∧
    Api.downloadZip "z1" = "z1" ∧
    DownloadButton
        (App.runPolls App.initialState
          (App.StatusResult.ok ⟨"ready", "u1", "z1"⟩ :: [])).final.zipUrl
        (App.runPolls App.initialState
          (App.StatusResult.ok ⟨"ready", "u1", "z1"⟩ :: [])).final.loadingPreview =
      DownloadView.button true "z1" ∧
    (∀ zs, zs.isEmpty = false →
        (App.handleGenerate App.initialState "p2").zipUrl = some zs →
        DownloadButton (App.handleGenerate App.initialState "p2").zipUrl
            (App.handleGenerate App.initialState "p2").loadingPreview =
          DownloadView.button false zs) ∧
    (DownloadButtonPid (some "p1")).1 = true :=
  claim4_download_gating_amended "z1" false App.initialState ⟨"ready", "u1", "z1"⟩ []
    "p2" "p1" rfl (by decide) (by decide) (by decide)

/-- C5: at most one polling timer is armed at every point of every
coordinator trace (the single `projectId` slot tracks one session), and on
adopting a new identifier `B` after `A` the effect cleanup's
`clearInterval` for `A` is emitted before the timer for `B` is installed —
in particular before every `checkStatus` query of the `B` session, which
all sit after `timerStart B` in the trace. -/
theorem claim5_single_session_cancel_first :
    (∀ gens, App.boundedActive [] (App.genTrace none gens) = true) ∧
    (∀ (t : Option ProjectId) (A B : ProjectId) rsA rsB rest,
      A.isEmpty = false → B.isEmpty = false →
      App.genTrace t ((some A, rsA) :: (some B, rsB) :: rest) =
        App.cancelEvents t ++
          (App.Event.timerStart A ::
            (App.queryEvents A rsA ++ App.selfCancelEvents A rsA)) ++
          (App.Event.timerCancel A :: App.Event.timerStart B ::
            (App.queryEvents B rsB ++ App.selfCancelEvents B rsB)) ++
          App.genTrace (some B) rest) := by
  constructor
  · intro gens
    exact App.boundedActive_genTrace gens none [] (Or.inl rfl)
  · intro t A B rsA rsB rest hA hB
    simp [App.genTrace, App.sessionEvents, truthyId, hA, hB, App.cancelEvents]

theorem claim5_single_session_cancel_first_witness :
    App.boundedActive []
        (App.genTrace none [(some "p1", []), (some "p2", [])]) = true ∧
    App.genTrace none [(some "p1", []), (some "p2", [])] =
      App.cancelEvents none ++
        (App.Event.timerStart "p1" ::
          (App.queryEvents "p1" [] ++ App.selfCancelEvents "p1" [])) ++
        (App.Event.timerCancel "p1" :: App.Event.timerStart "p2" ::
          (App.queryEvents "p2" [] ++ App.selfCancelEvents "p2" [])) ++
        App.genTrace (some "p2") [] :=
  ⟨claim5_single_session_cancel_first.1 [(some "p1", []), (some "p2", [])],
   claim5_single_session_cancel_first.2 none "p1" "p2" [] [] []
     (by decide) (by decide)⟩

end Webify
